import Mathlib

/-!
Verification of the streaming conversational pipeline of the Dark-Mater
repository (backend/app: llm/ollamaClient.py, services/companyChat.py,
services/mcpChat.py, clients/mcpMemoryClient.py) against its
natural-language specification.

Python values crossing the boundaries of the modelled functions are
shallowly embedded: JSON documents as the inductive `Json`, exception
classes as the inductive `OllamaError`, byte/text streams as lists of
character lists, and the relational / Redis stores as plain Lean lists.
-/

/-- JSON values, as produced by Python `json.loads`.  Numbers are modelled
as integers (no claim depends on numeric payloads). -/
inductive Json where
  | null : Json
  | bool (b : Bool) : Json
  | num (n : Int) : Json
  | str (s : String) : Json
  | arr (xs : List Json) : Json
  | obj (fields : List (String × Json)) : Json
deriving Repr, Inhabited, BEq

/-- Python `dict.get(key)` on a parsed JSON object: first binding of the
key, `none` when the value is not an object or the key is absent. -/
def Json.getField : Json → String → Option Json
  | .obj fields, key => fields.lookup key
  | _, _ => none

/-- Python `len(x)` on a JSON value: defined for strings, arrays and
objects, raises `TypeError` (modelled as `none`) on numbers, booleans
and `None`. -/
def Json.pyLen : Json → Option Nat
  | .str s => some s.length
  | .arr xs => some xs.length
  | .obj fields => some fields.length
  | _ => none

/-- The exception taxonomy of `app/llm/ollamaClient.py` (lines 19-36):
`ModelError`, `ValidationError`, `TransportError`, `StreamingError`,
each carrying the message string passed to the constructor. -/
inductive OllamaError where
  | modelError (msg : String)
  | validationError (msg : String)
  | transportError (msg : String)
  | streamingError (msg : String)
deriving Repr, DecidableEq

/-- Python `str(e)` on one of the exceptions above: the message. -/
def OllamaError.message : OllamaError → String
  | .modelError m => m
  | .validationError m => m
  | .transportError m => m
  | .streamingError m => m

/-- Python whitespace for `str.strip()` (the ASCII part, which is all the
streamed payloads contain). -/
def pyIsSpace (c : Char) : Bool :=
  c = ' ' ∨ c = '\t' ∨ c = '\n' ∨ c = '\r' ∨ c = '\x0b' ∨ c = '\x0c'

/-- Python `str.strip()` on a character list. -/
def pyStrip (l : List Char) : List Char :=
  ((l.dropWhile pyIsSpace).reverse.dropWhile pyIsSpace).reverse

/-- Python `str.strip()` on a `String`, used for blank-name checks. -/
def pyStripStr (s : String) : String :=
  String.mk (pyStrip s.data)

/-! ## Conversation Store, durable variant
Rows of the `company_chat_messages` table (`app/db/models.py`) as read by
`CompanyChatService.get_messages` (`app/services/companyChat.py` 60-102).
UUIDs are abstracted to naturals, `created_at` to a natural timestamp. -/

structure DbMessage where
  id : Nat
  thread_id : Nat
  role : String
  content : String
  model_used : Option String := none
  token_count : Option Nat := none
  created_at : Nat
deriving Repr, DecidableEq

/-- Ordering used by the query's `ORDER BY created_at DESC`. -/
def tsGE (a b : DbMessage) : Prop := b.created_at ≤ a.created_at

instance : DecidableRel tsGE := fun a b => Nat.decLe b.created_at a.created_at

instance : IsTotal DbMessage tsGE := ⟨fun a b => Nat.le_total b.created_at a.created_at⟩

instance : IsTrans DbMessage tsGE := ⟨fun _ _ _ h1 h2 => Nat.le_trans h2 h1⟩

/-- CompanyChatService.get_messages (companyChat.py 60-102): select rows of
the thread, order by `created_at` descending (`insertionSort` is one
refinement of the SQL order, which leaves ties unspecified), take the first
`limit` rows, then reverse into chronological order.  A `none` limit
defaults to the configured `COMPANY_CHAT_HISTORY_LIMIT`. -/
def getMessages (table : List DbMessage) (threadId : Nat)
    (limit : Option Nat) (historyLimit : Nat) : List DbMessage :=
  let lim := limit.getD historyLimit
  ((((table.filter (fun m => m.thread_id == threadId)).insertionSort tsGE).take lim)).reverse

/-! ## Conversation Store, cache variant
`McpChatService` (`app/services/mcpChat.py`): a Redis value per
(server, thread) key holding a JSON list of turn records; modelled as the
deserialized list (`none` = key absent). -/

/-- One cached turn record as written by `send_mcp_message` (mcpChat.py
192-205).  The source writes the literal string "now" as timestamp. -/
structure CacheMsg where
  role : String
  content : String
  model_used : Option String := none
  token_count : Option Nat := none
  timestamp : String := "now"
deriving Repr, DecidableEq

/-- Python `lst[-n:]`: the last `n` elements — except that `lst[-0:]` is
the whole list, faithfully modelled. -/
def sliceLastPy (n : Nat) (l : List α) : List α :=
  if n = 0 then l else l.drop (l.length - n)

/-- McpChatService._get_redis_key (mcpChat.py 43-45). -/
def getRedisKey (serverId threadId : String) : String :=
  "mcpchat:" ++ serverId ++ ":" ++ threadId

/-- McpChatService._cache_messages (mcpChat.py 67-88): the value persisted
for the key is the input truncated to the last `history_limit` entries
(the 3600 s TTL is not modelled). -/
def cacheMessages (historyLimit : Nat) (messages : List CacheMsg) : List CacheMsg :=
  sliceLastPy historyLimit messages

/-- McpChatService._get_cached_messages (mcpChat.py 47-65): absent key (or
any Redis failure) yields `[]`; otherwise the stored list truncated to the
last `history_limit` entries. -/
def getCachedMessages (historyLimit : Nat) (stored : Option (List CacheMsg)) : List CacheMsg :=
  match stored with
  | some messages => sliceLastPy historyLimit messages
  | none => []

/-- One read-modify-write append of a single record through the cache
contract (read via `_get_cached_messages`, write via `_cache_messages`). -/
def cacheAppendOne (historyLimit : Nat) (stored : Option (List CacheMsg))
    (m : CacheMsg) : List CacheMsg :=
  cacheMessages historyLimit (getCachedMessages historyLimit stored ++ [m])

/-- The stored value after appending every record of `ms` in order,
starting from an absent key. -/
def cacheAfterAppends (historyLimit : Nat) (ms : List CacheMsg) : List CacheMsg :=
  ms.foldl (fun st m => cacheAppendOne historyLimit (some st) m) []

/-! ## Model Gateway: error classification (ollamaClient.py 193-220) -/

/-- Python's substring containment `needle in hay` on character lists. -/
def containsSub (needle : List Char) : List Char → Bool
  | [] => needle.isEmpty
  | c :: rest => needle.isPrefixOf (c :: rest) || containsSub needle rest

/-- Python `'model' in error_msg.lower()` (ASCII lowering; the messages
this is applied to are ASCII). -/
def mentionsModel (errorMsg : String) : Bool :=
  containsSub "model".data (errorMsg.data.map Char.toLower)

/-- OllamaClient._handle_error_response (ollamaClient.py 203-220), after the
error message has been extracted from the body: status-driven mapping to an
exception value (the source returns the exception; its caller raises it). -/
def handleErrorResponse (statusCode : Nat) (errorMsg : String) : OllamaError :=
  if statusCode = 404 then
    if mentionsModel errorMsg then .modelError ("Model not found: " ++ errorMsg)
    else .validationError ("Endpoint not found: " ++ errorMsg)
  else if statusCode = 400 then .validationError ("Bad request: " ++ errorMsg)
  else if 500 ≤ statusCode ∧ statusCode < 600 then
    .transportError ("Server error: " ++ errorMsg)
  else .transportError ("HTTP " ++ toString statusCode ++ ": " ++ errorMsg)

/-- Message extraction of _handle_error_response (ollamaClient.py 205-209):
`body` is the outcome of `json.loads(response_text)` (`Except.error` = parse
failure).  A parsed body yields its `error` field or "Unknown error"; an
unparseable body yields the raw text, or "HTTP <status>" when that is empty.
A non-string `error` field is outside the model (the source would crash on
`.lower()` for 404 bodies). -/
def extractErrorMsg (body : Except String Json) (responseText : String)
    (statusCode : Nat) : String :=
  match body with
  | .ok j =>
    match j.getField "error" with
    | some (.str s) => s
    | _ => "Unknown error"
  | .error _ => if responseText = "" then "HTTP " ++ toString statusCode else responseText

/-- OllamaClient._handle_response (ollamaClient.py 193-201): a 200 response
returns its parsed JSON body, an unparseable 200 body raises
`ValidationError`, any other status raises the mapped error. -/
def handleResponse (statusCode : Nat) (body : Except String Json)
    (responseText : String) : Except OllamaError Json :=
  if statusCode = 200 then
    match body with
    | .ok j => .ok j
    | .error e => .error (.validationError ("Invalid JSON response: " ++ e))
  else .error (handleErrorResponse statusCode (extractErrorMsg body responseText statusCode))

/-! ## Model Gateway: request loop with retries (ollamaClient.py 104-145) -/

/-- Outcome of one attempt of the non-streaming `client.request` call:
a connection error, a timeout, some other exception raised while issuing or
handling the request, or an HTTP response (status, parsed body, raw text). -/
inductive AttemptOutcome where
  | connectError (msg : String)
  | timeoutError (msg : String)
  | otherFault (msg : String)
  | response (statusCode : Nat) (body : Except String Json) (responseText : String)

/-- Message of a retryable (connection / timeout) attempt outcome. -/
def retryableMsg : AttemptOutcome → Option String
  | .connectError m => some m
  | .timeoutError m => some m
  | _ => none

/-- OllamaClient defaults (ollamaClient.py 88-98): max_retries. -/
def defaultMaxRetries : Nat := 2

/-- OllamaClient defaults (ollamaClient.py 88-98): retry_delay, in seconds. -/
def defaultRetryDelay : ℚ := 1

/-- The body of `for attempt in range(max_retries + 1)` of
OllamaClient._make_request (ollamaClient.py 120-145, non-streaming path),
starting at attempt index `attempt` with `fuel` loop iterations left.
Connection and timeout errors sleep `retry_delay * 2 ** attempt` and retry
while `attempt < max_retries`, then raise `TransportError`; every other
exception — including the classified errors raised by `_handle_response`,
which the broad `except Exception` catches — is wrapped immediately into
`TransportError("Unexpected error: ...")` without a retry.  Returns the
result together with the list of slept delays. -/
def makeRequestFrom (maxRetries : Nat) (retryDelay : ℚ)
    (outcomes : Nat → AttemptOutcome) :
    Nat → Nat → Except OllamaError Json × List ℚ
  | _, 0 => (.error (.transportError "Request failed"), [])
  | attempt, fuel + 1 =>
    match outcomes attempt with
    | .response statusCode body responseText =>
      match handleResponse statusCode body responseText with
      | .ok j => (.ok j, [])
      | .error e =>
        (.error (.transportError ("Unexpected error: " ++ e.message)), [])
    | .otherFault m =>
      (.error (.transportError ("Unexpected error: " ++ m)), [])
    | .connectError m =>
      if attempt < maxRetries then
        let d := retryDelay * 2 ^ attempt
        let rest := makeRequestFrom maxRetries retryDelay outcomes (attempt + 1) fuel
        (rest.1, d :: rest.2)
      else
        (.error (.transportError
          ("Connection failed after " ++ toString (maxRetries + 1) ++ " attempts: " ++ m)), [])
    | .timeoutError m =>
      if attempt < maxRetries then
        let d := retryDelay * 2 ^ attempt
        let rest := makeRequestFrom maxRetries retryDelay outcomes (attempt + 1) fuel
        (rest.1, d :: rest.2)
      else
        (.error (.transportError
          ("Connection failed after " ++ toString (maxRetries + 1) ++ " attempts: " ++ m)), [])

/-- OllamaClient._make_request (ollamaClient.py 104-145), non-streaming:
the loop entered at attempt 0 with `max_retries + 1` iterations available. -/
def makeRequest (maxRetries : Nat) (retryDelay : ℚ)
    (outcomes : Nat → AttemptOutcome) : Except OllamaError Json × List ℚ :=
  makeRequestFrom maxRetries retryDelay outcomes 0 (maxRetries + 1)

/-! ## Model Gateway: streaming reader (ollamaClient.py 147-191)
Transport text is modelled as lists of characters; `json.loads` on a line
is an abstract parameter `parse` (`none` = `JSONDecodeError`). -/

/-- Split a character list at every newline; the final segment (possibly
empty) is the part after the last newline.  Never returns `[]`. -/
def splitNL : List Char → List (List Char)
  | [] => [[]]
  | c :: rest =>
    if c = '\n' then [] :: splitNL rest
    else
      match splitNL rest with
      | s :: ss => (c :: s) :: ss
      | [] => [[c]]

/-- Process one split-off line (ollamaClient.py 168-178): strip it, skip it
when empty, otherwise attempt the JSON parse, skipping on failure. -/
def lineYield (parse : List Char → Option α) (line : List Char) : Option α :=
  let s := pyStrip line
  if s = [] then none else parse s

/-- The `while '\n' in buffer` body applied to `buffer ++ chunk`
(ollamaClient.py 162-178): every complete line is processed in order and
the trailing newline-free segment becomes the new buffer. -/
def feedChunk (parse : List Char → Option α) (st : List α × List Char)
    (chunk : List Char) : List α × List Char :=
  let parts := splitNL (st.2 ++ chunk)
  (st.1 ++ parts.dropLast.filterMap (lineYield parse), parts.getLastD [])

/-- State of the reader loop after consuming the given transport
fragments: yields emitted so far and the pending partial-line buffer. -/
def feedAll (parse : List Char → Option α) (fragments : List (List Char)) :
    List α × List Char :=
  fragments.foldl (feedChunk parse) ([], [])

/-- Mid-stream transport failure inside `response.aiter_text()`. -/
inductive StreamFault where
  | timeout
  | connectFault (msg : String)

/-- OllamaClient._stream_request body, 200 branch (ollamaClient.py
161-191): consume fragments, buffering partial lines; on clean end of
stream a non-empty trailing buffer is parsed as one final line; a
mid-stream timeout surfaces as `StreamingError`, a mid-stream connection
error as `TransportError`, each abandoning the trailing buffer.  The
fragments are those the transport delivered before the fault (if any).
Returns the yielded chunks and the terminal error, if one was raised. -/
def streamRun (parse : List Char → Option α) (fragments : List (List Char))
    (fault : Option StreamFault) : List α × Option OllamaError :=
  let st := feedAll parse fragments
  match fault with
  | none => (st.1 ++ (lineYield parse st.2).toList, none)
  | some .timeout => (st.1, some (.streamingError "Stream timed out"))
  | some (.connectFault m) =>
    (st.1, some (.transportError ("Connection error during streaming: " ++ m)))

/-- OllamaClient._stream_request including the initial status check
(ollamaClient.py 156-159): a non-200 response raises the classified error
before anything is yielded (this raise is not caught by the generator's
own `except` clauses, so the classification survives on the streaming
path). -/
def streamRequest (parse : List Char → Option α) (statusCode : Nat)
    (body : Except String Json) (responseText : String)
    (fragments : List (List Char)) (fault : Option StreamFault) :
    List α × Option OllamaError :=
  if statusCode = 200 then streamRun parse fragments fault
  else ([], some (handleErrorResponse statusCode (extractErrorMsg body responseText statusCode)))

/-- Reference semantics for the claim: split the whole transport text at
newlines and process every segment (the last one included) as one line. -/
def allLineYields (parse : List Char → Option α) (text : List Char) : List α :=
  (splitNL text).filterMap (lineYield parse)

/-! ## Stream Orchestrator: the generation loop
companyChat.py 248-267 and mcpChat.py 170-189 are textually identical:
iterate the chat stream, forwarding and accumulating every non-empty text
delta, breaking on the done flag; any exception raised by the iteration is
converted into a single "Error: <message>" delta, and the accumulator is
REPLACED by that error text (`assistant_content = error_content`). -/

/-- One chunk of the chat stream as seen by the services (content text and
done flag of `StreamChunk`). -/
structure SChunk where
  content : String
  done : Bool
deriving Repr, DecidableEq

/-- Result of the generation loop: the deltas yielded to the caller, the
final `assistant_content`, and the final `token_count`. -/
structure LoopResult where
  yielded : List String
  content : String
  tokens : Nat
deriving Repr, DecidableEq

/-- The loop body with accumulators, over the chunks the stream yields
before it either ends, or raises the exception `err` (if `err` is `some`).
A `done` chunk breaks out before any further chunk — and before the
exception, which then never fires. -/
def chatStreamLoopGo (acc : String) (tc : Nat) (ys : List String) :
    List SChunk → Option String → LoopResult
  | [], none => ⟨ys, acc, tc⟩
  | [], some m => ⟨ys ++ ["Error: " ++ m], "Error: " ++ m, tc⟩
  | c :: rest, err =>
    let acc' := if c.content = "" then acc else acc ++ c.content
    let tc' := if c.content = "" then tc else tc + 1
    let ys' := if c.content = "" then ys else ys ++ [c.content]
    if c.done then ⟨ys', acc', tc'⟩
    else chatStreamLoopGo acc' tc' ys' rest err

/-- The generation loop of both services (companyChat.py 248-267,
mcpChat.py 170-189), started with empty accumulators. -/
def chatStreamLoop (chunks : List SChunk) (err : Option String) : LoopResult :=
  chatStreamLoopGo "" 0 [] chunks err

/-- McpChatService.send_mcp_message, history and persistence slice
(mcpChat.py 117, 170-207): read the cached history, run the generation
loop, then write back the history extended with the user turn and the
assistant turn (content = final `assistant_content`, token_count = final
`token_count`, timestamps the literal "now").  Returns the deltas yielded
to the caller and the value persisted under the thread's key. -/
def sendMcpMessage (historyLimit : Nat) (stored : Option (List CacheMsg))
    (text mcpModel : String) (chunks : List SChunk) (err : Option String) :
    List String × List CacheMsg :=
  let cached := getCachedMessages historyLimit stored
  let r := chatStreamLoop chunks err
  let newMessages := cached ++
    [⟨"user", text, none, none, "now"⟩,
     ⟨"assistant", r.content, some mcpModel, some r.tokens, "now"⟩]
  (r.yielded, cacheMessages historyLimit newMessages)

/-- CompanyChatService.send_company_message, persistence slice
(companyChat.py 227-287): insert the user row before generation and the
assistant row (content = final `assistant_content`) after it.  Row ids and
timestamps are parameters (the source draws fresh UUIDs and lets the
database default `created_at`).  Returns the deltas yielded to the caller
and the table after the turn. -/
def sendCompanyMessage (table : List DbMessage) (threadId : Nat)
    (userMsgId asstMsgId tsUser tsAsst : Nat) (text companyModel : String)
    (chunks : List SChunk) (err : Option String) :
    List String × List DbMessage :=
  let r := chatStreamLoop chunks err
  (r.yielded,
    table ++
      [⟨userMsgId, threadId, "user", text, none, none, tsUser⟩,
       ⟨asstMsgId, threadId, "assistant", r.content, some companyModel, some r.tokens, tsAsst⟩])

/-- Result of CompanyChatService.summarize_thread: the returned summary
string, the table after the call, and whether the model was invoked. -/
structure SummarizeResult where
  summary : String
  table : List DbMessage
  modelCalled : Bool
deriving Repr, DecidableEq

/-- Summary extraction of summarize_thread (companyChat.py 329):
`response.get('response', 'Unable to generate summary.')`; non-string
`response` fields are outside the model. -/
def responseSummary (j : Json) : String :=
  match j.getField "response" with
  | some (.str s) => s
  | _ => "Unable to generate summary."

/-- CompanyChatService.summarize_thread (companyChat.py 289-348): load up
to 50 recent messages; with fewer than 5, return the fixed "too short"
result without touching the model; otherwise run a non-streaming generate
call (`genOutcome`; `Except.error` = any raised exception, carrying
`str(e)`), read the summary out of the response's `response` field
(default "Unable to generate summary."; non-string fields are outside the
model), store it as a system-role row prefixed with the fixed marker, and
return it; on failure return "Summarization failed: <e>" without storing
anything. -/
def summarizeThread (table : List DbMessage) (threadId : Nat)
    (historyLimit : Nat) (genOutcome : Except String Json)
    (summaryMsgId tsSummary : Nat) (companyModel : String) : SummarizeResult :=
  let messages := getMessages table threadId (some 50) historyLimit
  if messages.length < 5 then ⟨"Thread too short to summarize.", table, false⟩
  else
    match genOutcome with
    | .ok j =>
      let summary := responseSummary j
      ⟨summary,
        table ++ [⟨summaryMsgId, threadId, "system", "[THREAD SUMMARY]: " ++ summary,
          some companyModel, none, tsSummary⟩],
        true⟩
    | .error e => ⟨"Summarization failed: " ++ e, table, true⟩

/-! ## Remote-memory client and the remaining Gateway operations -/

/-- Outcome of the single HTTP exchange of
McpMemoryClient.retrieve_memory: network failure (ConnectError/Timeout),
any other exception, or a response with status and `response.json()`
outcome. -/
inductive FetchOutcome where
  | networkError (msg : String)
  | otherFault (msg : String)
  | response (statusCode : Nat) (body : Except String Json)

/-- URL guard shared by the memory-client methods (`startswith(('http://',
'https://'))`). -/
def validServerUrl (serverUrl : String) : Bool :=
  "http://".data.isPrefixOf serverUrl.data || "https://".data.isPrefixOf serverUrl.data

/-- McpMemoryClient.retrieve_memory (mcpMemoryClient.py 32-113): an invalid
server URL raises `McpMemoryError` (modelled as `Except.error`) before any
request; otherwise a 200 body that is a bare list is returned as is, an
object's `snippets` field wins over its `memories` field, and every other
case — unrecognized 200 payload, unparseable 200 body, any non-200 status,
any network or other failure — yields the empty list. -/
def retrieveMemory (serverUrl : String) (outcome : FetchOutcome) :
    Except String Json :=
  if ¬ validServerUrl serverUrl then
    .error ("Invalid server URL: " ++ serverUrl)
  else
    .ok <|
      match outcome with
      | .networkError _ => Json.arr []
      | .otherFault _ => Json.arr []
      | .response statusCode body =>
        if statusCode = 200 then
          match body with
          | .ok (Json.arr xs) => Json.arr xs
          | .ok (Json.obj fields) =>
            match fields.lookup "snippets" with
            | some v => v
            | none =>
              match fields.lookup "memories" with
              | some v => v
              | none => Json.arr []
          | .ok _ => Json.arr []
          | .error _ => Json.arr []
        else Json.arr []

/-- Shape of the `input` field OllamaClient.embed sends (ollamaClient.py
352-358): a bare string for a single text, the list otherwise. -/
inductive EmbedInput where
  | single (t : String)
  | multi (ts : List String)
deriving Repr, DecidableEq

/-- OllamaClient.embed (ollamaClient.py 335-361): `ValidationError` on an
empty text list or a blank model name, before any request; otherwise the
`/api/embed` request is issued once and its outcome returned verbatim —
no check relates the response's embedding count to `texts.length`.  The
second component records the request payload shape, `none` when no
request was issued. -/
def embed (maxRetries : Nat) (retryDelay : ℚ) (model : String)
    (texts : List String) (outcomes : Nat → AttemptOutcome) :
    Except OllamaError Json × Option EmbedInput :=
  match texts with
  | [] => (.error (.validationError "Texts cannot be empty"), none)
  | t :: ts =>
    if pyStripStr model = "" then
      (.error (.validationError "Model name cannot be empty"), none)
    else
      ((makeRequest maxRetries retryDelay outcomes).1,
        some (if ts.isEmpty then .single t else .multi (t :: ts)))

/-- OllamaClient.list_models (ollamaClient.py 363-370): the `models` field
of the `/api/tags` response (default `[]`); every exception — transport
failure as well as the `AttributeError` of `.get` on a non-object body —
is absorbed into `[]`. -/
def listModels (maxRetries : Nat) (retryDelay : ℚ)
    (outcomes : Nat → AttemptOutcome) : Json :=
  match (makeRequest maxRetries retryDelay outcomes).1 with
  | .ok (Json.obj fields) => (fields.lookup "models").getD (Json.arr [])
  | .ok _ => Json.arr []
  | .error _ => Json.arr []

/-- Number of embeddings in an `/api/embed` response body. -/
def embeddingsCount (j : Json) : Nat :=
  match j.getField "embeddings" with
  | some (.arr xs) => xs.length
  | _ => 0

/-- Result dictionary of OllamaClient.health_check. -/
structure HealthResult where
  connected : Bool
  status : String
  models : Json
  model_count : Nat
deriving Repr

/-- OllamaClient.health_check (ollamaClient.py 407-425): builds the healthy
result from `list_models()`; the only exception its `try` can see is the
`TypeError` of `len(models)` when the `models` field of a 200 body is a
value without a length, in which case the except-branch reports offline. -/
def healthCheck (maxRetries : Nat) (retryDelay : ℚ)
    (outcomes : Nat → AttemptOutcome) : HealthResult :=
  let models := listModels maxRetries retryDelay outcomes
  match models.pyLen with
  | some n => ⟨true, "online", models, n⟩
  | none => ⟨false, "offline", Json.arr [], 0⟩

/-! ## Helper lemmas: Python tail slicing and the cache -/

theorem sliceLastPy_length_le {α : Type _} (n : Nat) (hn : 0 < n) (l : List α) :
    (sliceLastPy n l).length ≤ n := by
  simp only [sliceLastPy, if_neg hn.ne']
  rw [List.length_drop]
  omega

theorem sliceLastPy_of_length_le {α : Type _} {n : Nat} {l : List α}
    (h : l.length ≤ n) : sliceLastPy n l = l := by
  unfold sliceLastPy
  rcases Nat.eq_zero_or_pos n with h0 | h0
  · simp [h0]
  · rw [if_neg h0.ne']
    have : l.length - n = 0 := by omega
    simp [this]

theorem sliceLastPy_idem {α : Type _} (n : Nat) (hn : 0 < n) (l : List α) :
    sliceLastPy n (sliceLastPy n l) = sliceLastPy n l :=
  sliceLastPy_of_length_le (sliceLastPy_length_le n hn l)

theorem sliceLastPy_append_one {α : Type _} (n : Nat) (hn : 0 < n)
    (l : List α) (m : α) :
    sliceLastPy n (sliceLastPy n l ++ [m]) = sliceLastPy n (l ++ [m]) := by
  rcases le_or_lt l.length n with h | h
  · rw [sliceLastPy_of_length_le h]
  · simp only [sliceLastPy, if_neg hn.ne']
    have hlen : (l.drop (l.length - n)).length = n := by
      rw [List.length_drop]; omega
    have h1 : (l.drop (l.length - n) ++ [m]).drop ((l.drop (l.length - n) ++ [m]).length - n)
        = (l.drop (l.length - n)).drop 1 ++ [m] := by
      rw [List.length_append, hlen]
      have : n + [m].length - n = 1 := by simp
      rw [this, List.drop_append_of_le_length (by omega)]
    rw [h1, List.drop_drop]
    have h2 : (l ++ [m]).length - n = l.length + 1 - n := by
      simp
    rw [h2, List.drop_append_of_le_length (by omega)]
    have h3 : l.length - n + 1 = l.length + 1 - n := by omega
    rw [h3]

theorem cacheAfterAppends_from (W : Nat) (hW : 0 < W) (ms : List CacheMsg)
    (l : List CacheMsg) :
    ms.foldl (fun st m => cacheAppendOne W (some st) m) (sliceLastPy W l)
      = sliceLastPy W (l ++ ms) := by
  induction ms generalizing l with
  | nil => simp
  | cons m rest ih =>
    have hstep : cacheAppendOne W (some (sliceLastPy W l)) m = sliceLastPy W (l ++ [m]) := by
      simp only [cacheAppendOne, getCachedMessages, cacheMessages]
      rw [sliceLastPy_idem W hW, sliceLastPy_append_one W hW]
    simp only [List.foldl_cons, hstep, ih (l ++ [m]), List.append_assoc, List.singleton_append]

theorem cacheAfterAppends_eq (W : Nat) (hW : 0 < W) (ms : List CacheMsg) :
    cacheAfterAppends W ms = sliceLastPy W ms := by
  have h0 : (sliceLastPy W ([] : List CacheMsg)) = [] := by
    simp [sliceLastPy]
  have := cacheAfterAppends_from W hW ms []
  rw [h0] at this
  simpa [cacheAfterAppends] using this

/-! ## Helper lemmas: the durable getRecent query -/

theorem getMessages_length_le (table : List DbMessage) (threadId : Nat)
    (limit : Option Nat) (historyLimit : Nat) :
    (getMessages table threadId limit historyLimit).length ≤ limit.getD historyLimit := by
  simp only [getMessages, List.length_reverse, List.length_take]
  exact min_le_left _ _

theorem getMessages_chronological (table : List DbMessage) (threadId : Nat)
    (limit : Option Nat) (historyLimit : Nat) :
    (getMessages table threadId limit historyLimit).Pairwise
      (fun a b => a.created_at ≤ b.created_at) := by
  simp only [getMessages]
  rw [List.pairwise_reverse]
  exact List.Pairwise.sublist (List.take_sublist _ _) (List.sorted_insertionSort tsGE _)

theorem getMessages_same_thread (table : List DbMessage) (threadId : Nat)
    (limit : Option Nat) (historyLimit : Nat) (m : DbMessage)
    (hm : m ∈ getMessages table threadId limit historyLimit) :
    m.thread_id = threadId := by
  simp only [getMessages, List.mem_reverse] at hm
  have h1 := (List.take_sublist _ _).subset hm
  have h2 := (List.perm_insertionSort tsGE _).mem_iff.mp h1
  have h3 := List.of_mem_filter h2
  exact Nat.eq_of_beq_eq_true (by simpa using h3)

theorem getMessages_absent (table : List DbMessage) (threadId : Nat)
    (limit : Option Nat) (historyLimit : Nat)
    (h : ∀ m ∈ table, m.thread_id ≠ threadId) :
    getMessages table threadId limit historyLimit = [] := by
  simp only [getMessages]
  have hf : table.filter (fun m => m.thread_id == threadId) = [] := by
    rw [List.filter_eq_nil_iff]
    intro a ha
    simpa using h a ha
  rw [hf]
  simp [List.insertionSort]

/-! ## Helper lemmas: the generation loop on the error path -/

theorem chatStreamLoopGo_error (chunks : List SChunk) (m : String)
    (h : ∀ c ∈ chunks, c.done = false) (acc : String) (tc : Nat) (ys : List String) :
    chatStreamLoopGo acc tc ys chunks (some m) =
      ⟨ys ++ (chunks.filter (fun c => c.content != "")).map SChunk.content ++ ["Error: " ++ m],
       "Error: " ++ m,
       tc + (chunks.filter (fun c => c.content != "")).length⟩ := by
  induction chunks generalizing acc tc ys with
  | nil => simp [chatStreamLoopGo]
  | cons c rest ih =>
    have hc : c.done = false := h c (List.mem_cons_self c rest)
    have hrest : ∀ x ∈ rest, x.done = false := fun x hx => h x (List.mem_cons_of_mem c hx)
    by_cases hcnt : c.content = ""
    · simp only [chatStreamLoopGo, hcnt, if_pos rfl, hc, if_neg Bool.false_ne_true,
        List.filter_cons, bne_self_eq_false, Bool.false_eq_true]
      rw [ih hrest]
      simp [hcnt]
    · simp only [chatStreamLoopGo, if_neg hcnt, hc, if_neg Bool.false_ne_true]
      rw [ih hrest]
      simp only [List.filter_cons, List.map_cons, List.length_cons]
      have : (c.content != "") = true := by simpa using hcnt
      simp only [this, if_true, LoopResult.mk.injEq, List.map_cons, List.length_cons]
      refine ⟨by simp, trivial, by omega⟩

/-! ## Helper lemmas: newline splitting of the streaming buffer -/

theorem splitNL_ne_nil (l : List Char) : splitNL l ≠ [] := by
  cases l with
  | nil => simp [splitNL]
  | cons c rest =>
    simp only [splitNL]
    by_cases hc : c = '\n'
    · simp [hc]
    · simp only [if_neg hc]
      cases splitNL rest <;> simp

theorem splitNL_cons_newline (l : List Char) : splitNL ('\n' :: l) = [] :: splitNL l := by
  simp [splitNL]

theorem splitNL_cons_other {c : Char} (hc : ¬c = '\n') (l : List Char) :
    splitNL (c :: l) = (c :: (splitNL l).headD []) :: (splitNL l).tail := by
  simp only [splitNL, if_neg hc]
  rcases hsp : splitNL l with _ | ⟨s, ss⟩
  · exact absurd hsp (splitNL_ne_nil l)
  · simp

theorem splitNL_append (a b : List Char) :
    splitNL (a ++ b) = (splitNL a).dropLast ++ splitNL ((splitNL a).getLastD [] ++ b) := by
  induction a with
  | nil => simp [splitNL]
  | cons c a' ih =>
    by_cases hc : c = '\n'
    · subst hc
      rcases hsp : splitNL a' with _ | ⟨s, ss⟩
      · exact absurd hsp (splitNL_ne_nil a')
      · simp only [List.cons_append, splitNL_cons_newline, ih, hsp,
          List.getLastD_cons, List.dropLast_cons₂]
    · rcases hsp : splitNL a' with _ | ⟨s, ss⟩
      · exact absurd hsp (splitNL_ne_nil a')
      · rcases ss with _ | ⟨t, ts⟩
        · simp only [List.cons_append, splitNL_cons_other hc, ih, hsp,
            List.getLastD_cons, List.headD_cons, List.tail_cons,
            List.dropLast_single, List.nil_append, List.getLastD_nil]
        · simp only [List.cons_append, splitNL_cons_other hc, ih, hsp,
            List.getLastD_cons, List.headD_cons, List.tail_cons]
          simp [List.cons_append, List.dropLast_cons₂]

theorem getLastD_of_ne_nil {α : Type _} (l : List α) (d : α) (h : l ≠ []) :
    l.dropLast ++ [l.getLastD d] = l := by
  have h2 : l.getLastD d = l.getLast h := by
    rw [List.getLastD_eq_getLast?, List.getLast?_eq_getLast _ h]
    rfl
  rw [h2, List.dropLast_append_getLast h]

theorem getLastD_append_of_ne_nil {α : Type _} (a b : List α) (d : α) (h : b ≠ []) :
    (a ++ b).getLastD d = b.getLastD d := by
  rw [List.getLastD_eq_getLast?, List.getLastD_eq_getLast?,
    List.getLast?_append_of_ne_nil _ h]

theorem feed_invariant {α : Type _} (parse : List Char → Option α)
    (frags : List (List Char)) : ∀ T : List Char,
    List.foldl (feedChunk parse)
      ((splitNL T).dropLast.filterMap (lineYield parse), (splitNL T).getLastD []) frags
    = ((splitNL (T ++ frags.flatten)).dropLast.filterMap (lineYield parse),
       (splitNL (T ++ frags.flatten)).getLastD []) := by
  induction frags with
  | nil => intro T; simp
  | cons f rest ih =>
    intro T
    rw [List.foldl_cons]
    have hB := splitNL_ne_nil ((splitNL T).getLastD [] ++ f)
    have hstep : feedChunk parse
        ((splitNL T).dropLast.filterMap (lineYield parse), (splitNL T).getLastD []) f
        = ((splitNL (T ++ f)).dropLast.filterMap (lineYield parse),
           (splitNL (T ++ f)).getLastD []) := by
      simp only [feedChunk, splitNL_append T f]
      rw [List.dropLast_append_of_ne_nil _ hB, List.filterMap_append,
        getLastD_append_of_ne_nil _ _ _ hB]
    rw [hstep, ih (T ++ f)]
    simp [List.append_assoc]

theorem feedAll_eq {α : Type _} (parse : List Char → Option α)
    (frags : List (List Char)) :
    feedAll parse frags =
      ((splitNL frags.flatten).dropLast.filterMap (lineYield parse),
       (splitNL frags.flatten).getLastD []) := by
  have h := feed_invariant parse frags []
  simpa [feedAll, splitNL] using h

theorem filterMap_singleton_toList {α β : Type _} (f : α → Option β) (x : α) :
    List.filterMap f [x] = (f x).toList := by
  cases h : f x <;> simp [List.filterMap_cons, h]

theorem streamRun_clean_eq {α : Type _} (parse : List Char → Option α)
    (frags : List (List Char)) :
    streamRun parse frags none = (allLineYields parse frags.flatten, none) := by
  simp only [streamRun, feedAll_eq, allLineYields]
  have hne := splitNL_ne_nil frags.flatten
  conv_rhs => rw [← getLastD_of_ne_nil (splitNL frags.flatten) [] hne]
  rw [List.filterMap_append, filterMap_singleton_toList]

/-! ## Helper lemmas: the retry loop -/

theorem makeRequestFrom_advance (maxRetries : Nat) (retryDelay : ℚ)
    (outcomes : Nat → AttemptOutcome) :
    ∀ (k a : Nat), a + k ≤ maxRetries →
    (∀ i, i < k → (retryableMsg (outcomes (a + i))).isSome) →
    makeRequestFrom maxRetries retryDelay outcomes a (maxRetries + 1 - a)
      = ((makeRequestFrom maxRetries retryDelay outcomes (a + k) (maxRetries + 1 - (a + k))).1,
         (List.range k).map (fun i => retryDelay * 2 ^ (a + i))
           ++ (makeRequestFrom maxRetries retryDelay outcomes (a + k) (maxRetries + 1 - (a + k))).2) := by
  intro k
  induction k with
  | zero => intro a _ _; simp
  | succ k ih =>
    intro a ha hr
    have haM : a < maxRetries := by omega
    have hfa : maxRetries + 1 - a = (maxRetries - a) + 1 := by omega
    have h0 := hr 0 (Nat.succ_pos k)
    simp only [Nat.add_zero] at h0
    have hsum : a + (k + 1) = a + 1 + k := by omega
    rw [hfa, hsum]
    rcases hout : outcomes a with m | m | m | ⟨st, body, raw⟩
    · simp only [makeRequestFrom, hout, if_pos haM]
      have hfa2 : maxRetries - a = maxRetries + 1 - (a + 1) := by omega
      rw [hfa2, ih (a + 1) (by omega)
        (fun i hi => by
          have := hr (i + 1) (by omega)
          rwa [show a + (i + 1) = a + 1 + i by omega] at this)]
      simp only [List.range_succ_eq_map, List.map_cons, List.map_map, Nat.add_zero,
        List.cons_append]
      have hfun : (fun i => retryDelay * 2 ^ (a + 1 + i))
          = ((fun i => retryDelay * 2 ^ (a + i)) ∘ Nat.succ) := by
        funext i
        simp only [Function.comp_apply, Nat.succ_eq_add_one]
        congr 2
        omega
      rw [hfun]
    · simp only [makeRequestFrom, hout, if_pos haM]
      have hfa2 : maxRetries - a = maxRetries + 1 - (a + 1) := by omega
      rw [hfa2, ih (a + 1) (by omega)
        (fun i hi => by
          have := hr (i + 1) (by omega)
          rwa [show a + (i + 1) = a + 1 + i by omega] at this)]
      simp only [List.range_succ_eq_map, List.map_cons, List.map_map, Nat.add_zero,
        List.cons_append]
      have hfun : (fun i => retryDelay * 2 ^ (a + 1 + i))
          = ((fun i => retryDelay * 2 ^ (a + i)) ∘ Nat.succ) := by
        funext i
        simp only [Function.comp_apply, Nat.succ_eq_add_one]
        congr 2
        omega
      rw [hfun]
    · rw [hout] at h0
      simp [retryableMsg] at h0
    · rw [hout] at h0
      simp [retryableMsg] at h0

theorem makeRequest_success (maxRetries : Nat) (retryDelay : ℚ)
    (outcomes : Nat → AttemptOutcome) (k : Nat) (j : Json) (raw : String)
    (hk : k ≤ maxRetries)
    (hpre : ∀ i, i < k → (retryableMsg (outcomes i)).isSome)
    (hsucc : outcomes k = .response 200 (.ok j) raw) :
    makeRequest maxRetries retryDelay outcomes
      = (.ok j, (List.range k).map (fun i => retryDelay * 2 ^ i)) := by
  have hadv := makeRequestFrom_advance maxRetries retryDelay outcomes k 0 (by omega)
    (fun i hi => by simpa using hpre i hi)
  simp only [Nat.zero_add, Nat.sub_zero] at hadv
  unfold makeRequest
  rw [hadv, show maxRetries + 1 - k = (maxRetries - k) + 1 from by omega]
  simp [makeRequestFrom, hsucc, handleResponse]

theorem makeRequest_exhausted (maxRetries : Nat) (retryDelay : ℚ)
    (outcomes : Nat → AttemptOutcome) (m : String)
    (hpre : ∀ i, i < maxRetries → (retryableMsg (outcomes i)).isSome)
    (hlast : retryableMsg (outcomes maxRetries) = some m) :
    makeRequest maxRetries retryDelay outcomes
      = (.error (.transportError
            ("Connection failed after " ++ toString (maxRetries + 1) ++ " attempts: " ++ m)),
         (List.range maxRetries).map (fun i => retryDelay * 2 ^ i)) := by
  have hadv := makeRequestFrom_advance maxRetries retryDelay outcomes maxRetries 0 (by omega)
    (fun i hi => by simpa using hpre i hi)
  simp only [Nat.zero_add, Nat.sub_zero] at hadv
  unfold makeRequest
  rw [hadv, show maxRetries + 1 - maxRetries = 0 + 1 from by omega]
  rcases hout : outcomes maxRetries with mm | mm | mm | ⟨st, body, raw⟩ <;>
    rw [hout] at hlast <;> simp only [retryableMsg] at hlast <;>
    cases hlast <;> simp [makeRequestFrom, hout]

theorem makeRequest_unexpected (maxRetries : Nat) (retryDelay : ℚ)
    (outcomes : Nat → AttemptOutcome) (k : Nat) (m : String)
    (hk : k ≤ maxRetries)
    (hpre : ∀ i, i < k → (retryableMsg (outcomes i)).isSome)
    (hother : outcomes k = .otherFault m) :
    makeRequest maxRetries retryDelay outcomes
      = (.error (.transportError ("Unexpected error: " ++ m)),
         (List.range k).map (fun i => retryDelay * 2 ^ i)) := by
  have hadv := makeRequestFrom_advance maxRetries retryDelay outcomes k 0 (by omega)
    (fun i hi => by simpa using hpre i hi)
  simp only [Nat.zero_add, Nat.sub_zero] at hadv
  unfold makeRequest
  rw [hadv, show maxRetries + 1 - k = (maxRetries - k) + 1 from by omega]
  simp [makeRequestFrom, hother]

theorem makeRequest_response_err (maxRetries : Nat) (retryDelay : ℚ)
    (outcomes : Nat → AttemptOutcome) (st : Nat) (body : Except String Json)
    (raw : String) (e : OllamaError)
    (h0 : outcomes 0 = .response st body raw)
    (herr : handleResponse st body raw = .error e) :
    makeRequest maxRetries retryDelay outcomes
      = (.error (.transportError ("Unexpected error: " ++ e.message)), []) := by
  unfold makeRequest
  simp [makeRequestFrom, h0, herr]

theorem makeRequest_response_ok (maxRetries : Nat) (retryDelay : ℚ)
    (outcomes : Nat → AttemptOutcome) (st : Nat) (body : Except String Json)
    (raw : String) (j : Json)
    (h0 : outcomes 0 = .response st body raw)
    (hok : handleResponse st body raw = .ok j) :
    makeRequest maxRetries retryDelay outcomes = (.ok j, []) := by
  unfold makeRequest
  simp [makeRequestFrom, h0, hok]

theorem sliceLastPy_getLast {α : Type _} (W : Nat) (hW : 0 < W) (l : List α) (a : α) :
    (sliceLastPy W (l ++ [a])).getLast? = some a := by
  simp only [sliceLastPy, if_neg hW.ne']
  rw [List.drop_append_of_le_length (by simp; omega)]
  exact List.getLast?_concat _

/-! ## Helper lemmas: Redis key separation -/

theorem sep_cons_inj (sep : Char) :
    ∀ (s1 s2 t1 t2 : List Char), sep ∉ s1 → sep ∉ s2 →
    s1 ++ sep :: t1 = s2 ++ sep :: t2 → s1 = s2 ∧ t1 = t2 := by
  intro s1
  induction s1 with
  | nil =>
    intro s2 t1 t2 _ h2 heq
    cases s2 with
    | nil => simpa using heq
    | cons c s2' =>
      simp only [List.nil_append, List.cons_append, List.cons.injEq] at heq
      exact absurd (heq.1 ▸ List.mem_cons_self c s2') h2
  | cons c s1' ih =>
    intro s2 t1 t2 h1 h2 heq
    cases s2 with
    | nil =>
      simp only [List.cons_append, List.nil_append, List.cons.injEq] at heq
      exact absurd (heq.1 ▸ List.mem_cons_self sep s1') (heq.1 ▸ h1)
    | cons c2 s2' =>
      simp only [List.cons_append, List.cons.injEq] at heq
      have hr := ih s2' t1 t2 (fun hx => h1 (List.mem_cons_of_mem c hx))
        (fun hx => h2 (List.mem_cons_of_mem c2 hx)) heq.2
      exact ⟨by rw [heq.1, hr.1], hr.2⟩

theorem getRedisKey_inj (s t s2 t2 : String)
    (hs : ':' ∉ s.data) (hs2 : ':' ∉ s2.data)
    (heq : getRedisKey s t = getRedisKey s2 t2) : s = s2 ∧ t = t2 := by
  have hdata : ("mcpchat:" ++ s ++ ":" ++ t).data = ("mcpchat:" ++ s2 ++ ":" ++ t2).data := by
    rw [show ("mcpchat:" ++ s ++ ":" ++ t) = getRedisKey s t from rfl,
      show ("mcpchat:" ++ s2 ++ ":" ++ t2) = getRedisKey s2 t2 from rfl, heq]
  simp only [String.data_append] at hdata
  rw [List.append_assoc, List.append_assoc, List.append_assoc, List.append_assoc] at hdata
  have htail := List.append_cancel_left hdata
  rw [show (":".data ++ t.data) = ':' :: t.data from rfl,
    show (":".data ++ t2.data) = ':' :: t2.data from rfl] at htail
  have hr := sep_cons_inj ':' s.data s2.data t.data t2.data hs hs2 htail
  refine ⟨?_, ?_⟩
  · cases s; cases s2; exact congrArg String.mk hr.1
  · cases t; cases t2; exact congrArg String.mk hr.2

/-! ## Claim theorems -/

/-- Claim C1 fails as stated: with the stream yielding "Hi" and " the" and
then raising "boom", the caller receives the prefix followed by the single
"Error: boom" delta, but the assistant message persisted by both services
has content exactly "Error: boom" — the accumulated prefix is replaced by
the error text, not prepended to it, so the persisted content differs from
"Hi the" ++ "Error: boom". -/
theorem C1_counterexample :
    (sendMcpMessage 8 none "hello" "phi3:mini"
        [⟨"Hi", false⟩, ⟨" the", false⟩] (some "boom")).1
      = ["Hi", " the", "Error: boom"]
    ∧ ((sendMcpMessage 8 none "hello" "phi3:mini"
        [⟨"Hi", false⟩, ⟨" the", false⟩] (some "boom")).2).map CacheMsg.content
      = ["hello", "Error: boom"]
    ∧ ((sendCompanyMessage [] 7 1 2 10 11 "hello" "llama3.2:3b"
        [⟨"Hi", false⟩, ⟨" the", false⟩] (some "boom")).2).map DbMessage.content
      = ["hello", "Error: boom"]
    ∧ "Error: boom" ≠ "Hi the" ++ "Error: boom" := by
  exact ⟨rfl, rfl, rfl, by decide⟩

/-- Claim C1, amended: if the stream raises "m" after yielding a prefix of
chunks none of which was flagged done, the caller receives every non-empty
delta of the prefix followed by one single "Error: m" delta, and both
services persist an assistant message whose content is exactly the error
text "Error: m" (the forwarded prefix is dropped from the persisted
content); the turn is still persisted in both Persistent and Ephemeral
modes. -/
theorem C1_midstream_error (chunks : List SChunk) (m : String)
    (hnd : ∀ c ∈ chunks, c.done = false)
    (W : Nat) (hW : 0 < W) (stored : Option (List CacheMsg))
    (text mcpModel : String) (table : List DbMessage)
    (threadId userMsgId asstMsgId tsUser tsAsst : Nat) (companyModel : String) :
    (chatStreamLoop chunks (some m)).yielded
      = (chunks.filter (fun c => c.content != "")).map SChunk.content ++ ["Error: " ++ m]
    ∧ (chatStreamLoop chunks (some m)).content = "Error: " ++ m
    ∧ (sendMcpMessage W stored text mcpModel chunks (some m)).1
        = (chatStreamLoop chunks (some m)).yielded
    ∧ ((sendMcpMessage W stored text mcpModel chunks (some m)).2).getLast?
        = some ⟨"assistant", "Error: " ++ m, some mcpModel,
            some (chatStreamLoop chunks (some m)).tokens, "now"⟩
    ∧ (sendCompanyMessage table threadId userMsgId asstMsgId tsUser tsAsst
        text companyModel chunks (some m)).1 = (chatStreamLoop chunks (some m)).yielded
    ∧ ((sendCompanyMessage table threadId userMsgId asstMsgId tsUser tsAsst
        text companyModel chunks (some m)).2).getLast?
        = some ⟨asstMsgId, threadId, "assistant", "Error: " ++ m, some companyModel,
            some (chatStreamLoop chunks (some m)).tokens, tsAsst⟩ := by
  have hloop := chatStreamLoopGo_error chunks m hnd "" 0 []
  have hyield : (chatStreamLoop chunks (some m)).yielded
      = (chunks.filter (fun c => c.content != "")).map SChunk.content ++ ["Error: " ++ m] := by
    rw [chatStreamLoop, hloop]
    simp
  have hcontent : (chatStreamLoop chunks (some m)).content = "Error: " ++ m := by
    rw [chatStreamLoop, hloop]
  refine ⟨hyield, hcontent, rfl, ?_, rfl, ?_⟩
  · simp only [sendMcpMessage, cacheMessages]
    rw [show (getCachedMessages W stored ++
        [⟨"user", text, none, none, "now"⟩,
         ⟨"assistant", (chatStreamLoop chunks (some m)).content, some mcpModel,
           some (chatStreamLoop chunks (some m)).tokens, "now"⟩])
      = ((getCachedMessages W stored ++ [⟨"user", text, none, none, "now"⟩]) ++
         [⟨"assistant", (chatStreamLoop chunks (some m)).content, some mcpModel,
           some (chatStreamLoop chunks (some m)).tokens, "now"⟩]) from by
      simp]
    rw [sliceLastPy_getLast W hW, hcontent]
  · simp only [sendCompanyMessage]
    rw [show (table ++
        [⟨userMsgId, threadId, "user", text, none, none, tsUser⟩,
         ⟨asstMsgId, threadId, "assistant", (chatStreamLoop chunks (some m)).content,
           some companyModel, some (chatStreamLoop chunks (some m)).tokens, tsAsst⟩])
      = ((table ++ [⟨userMsgId, threadId, "user", text, none, none, tsUser⟩]) ++
         [⟨asstMsgId, threadId, "assistant", (chatStreamLoop chunks (some m)).content,
           some companyModel, some (chatStreamLoop chunks (some m)).tokens, tsAsst⟩]) from by
      simp]
    rw [List.getLast?_concat, hcontent]

/-- Witness for C1_midstream_error at a concrete input: one-chunk prefix
"Hi", error "boom", window 8, empty cache. -/
theorem C1_witness :
    ((sendMcpMessage 8 none "hello" "phi3:mini" [⟨"Hi", false⟩] (some "boom")).2).getLast?
      = some ⟨"assistant", "Error: boom", some "phi3:mini",
          some (chatStreamLoop [⟨"Hi", false⟩] (some "boom")).tokens, "now"⟩ :=
  (C1_midstream_error [⟨"Hi", false⟩] "boom" (by decide) 8 (by decide) none "hello"
    "phi3:mini" [] 7 1 2 10 11 "llama3.2:3b").2.2.2.1

/-- Claim C2: with a positive configured window W, every cache write
truncates the stored list to at most W entries, appending N records one
write at a time leaves the store holding exactly the tail of the appended
sequence, and once N reaches W a read returns exactly the last W entries. -/
theorem C2_cache_truncation (W : Nat) (hW : 0 < W) :
    (∀ messages : List CacheMsg, (cacheMessages W messages).length ≤ W)
    ∧ (∀ ms : List CacheMsg, cacheAfterAppends W ms = sliceLastPy W ms)
    ∧ (∀ ms : List CacheMsg, W ≤ ms.length →
        getCachedMessages W (some (cacheAfterAppends W ms)) = ms.drop (ms.length - W)
        ∧ (getCachedMessages W (some (cacheAfterAppends W ms))).length = W) := by
  refine ⟨fun messages => sliceLastPy_length_le W hW messages,
    fun ms => cacheAfterAppends_eq W hW ms, fun ms hlen => ?_⟩
  rw [cacheAfterAppends_eq W hW ms]
  have h1 : getCachedMessages W (some (sliceLastPy W ms)) = sliceLastPy W ms := by
    simp only [getCachedMessages]
    exact sliceLastPy_idem W hW ms
  rw [h1]
  refine ⟨by simp [sliceLastPy, hW.ne'], ?_⟩
  simp only [sliceLastPy, if_neg hW.ne', List.length_drop]
  omega

/-- Witness for C2_cache_truncation: window 2, three appended records. -/
theorem C2_witness :
    getCachedMessages 2 (some (cacheAfterAppends 2
        [⟨"user", "a", none, none, "now"⟩, ⟨"assistant", "b", none, none, "now"⟩,
         ⟨"user", "c", none, none, "now"⟩]))
      = [⟨"assistant", "b", none, none, "now"⟩, ⟨"user", "c", none, none, "now"⟩] := by
  have h := ((C2_cache_truncation 2 (by decide)).2.2
    [⟨"user", "a", none, none, "now"⟩, ⟨"assistant", "b", none, none, "now"⟩,
     ⟨"user", "c", none, none, "now"⟩] (by decide)).1
  exact h.trans (by decide)

/-- Claim C3: the durable getRecent (get_messages) returns at most the
requested limit of rows, in non-decreasing created_at order, only rows of
the requested thread, and the empty list when the thread has no rows; the
cache getRecent (_get_cached_messages) returns at most the configured
window of entries, the empty list for an absent key, and reads only its
own (server, thread) key — for colon-free identifiers (the HTTP routes
admit only alphanumerics, hyphen and underscore) distinct key pairs map to
distinct Redis keys. -/
theorem C3_getRecent (table : List DbMessage) (threadId : Nat)
    (limit : Option Nat) (historyLimit : Nat)
    (W : Nat) (hW : 0 < W) (stored : Option (List CacheMsg))
    (s t s2 t2 : String) :
    (getMessages table threadId limit historyLimit).length ≤ limit.getD historyLimit
    ∧ (getMessages table threadId limit historyLimit).Pairwise
        (fun a b => a.created_at ≤ b.created_at)
    ∧ (∀ m ∈ getMessages table threadId limit historyLimit, m.thread_id = threadId)
    ∧ ((∀ m ∈ table, m.thread_id ≠ threadId) →
        getMessages table threadId limit historyLimit = [])
    ∧ (getCachedMessages W stored).length ≤ W
    ∧ getCachedMessages W none = ([] : List CacheMsg)
    ∧ (':' ∉ s.data → ':' ∉ s2.data →
        getRedisKey s t = getRedisKey s2 t2 → s = s2 ∧ t = t2) := by
  refine ⟨getMessages_length_le table threadId limit historyLimit,
    getMessages_chronological table threadId limit historyLimit,
    fun m hm => getMessages_same_thread table threadId limit historyLimit m hm,
    getMessages_absent table threadId limit historyLimit,
    ?_, rfl, fun hs hs2 heq => getRedisKey_inj s t s2 t2 hs hs2 heq⟩
  cases stored with
  | none => simp [getCachedMessages]
  | some l => exact sliceLastPy_length_le W hW l

/-- Witness for C3_getRecent: a two-thread table, window 2, a populated
cache value, and two distinct colon-free key pairs. -/
theorem C3_witness :
    (getMessages
        [⟨1, 7, "user", "x", none, none, 5⟩, ⟨2, 7, "assistant", "y", none, none, 3⟩,
         ⟨3, 9, "user", "z", none, none, 1⟩] 7 (some 1) 10).length ≤ 1
    ∧ (∀ m ∈ getMessages
        [⟨1, 7, "user", "x", none, none, 5⟩, ⟨2, 7, "assistant", "y", none, none, 3⟩,
         ⟨3, 9, "user", "z", none, none, 1⟩] 7 (some 1) 10, m.thread_id = 7)
    ∧ (':' ∉ "srv-1".data → ':' ∉ "srv-2".data →
        getRedisKey "srv-1" "th1" = getRedisKey "srv-2" "th2" →
        "srv-1" = "srv-2" ∧ "th1" = "th2") := by
  have h := C3_getRecent
    [⟨1, 7, "user", "x", none, none, 5⟩, ⟨2, 7, "assistant", "y", none, none, 3⟩,
     ⟨3, 9, "user", "z", none, none, 1⟩] 7 (some 1) 10 2 (by decide)
    (some [⟨"user", "a", none, none, "now"⟩]) "srv-1" "th1" "srv-2" "th2"
  exact ⟨h.1, h.2.2.1, h.2.2.2.2.2.2⟩

/-- Claim C4: for every transport fragmentation, the streaming reader
yields exactly the chunks obtained by splitting the concatenated text at
newlines and parsing each segment independently (stripped empty segments
and parse failures yield nothing, in arrival order, the trailing segment
included), it ends without error on a clean stream, and its output depends
only on the concatenation — any refragmentation of the same text yields
the same chunks. -/
theorem C4_stream_line_parsing {α : Type _} (parse : List Char → Option α)
    (fragments : List (List Char)) :
    (streamRun parse fragments none).1 = allLineYields parse fragments.flatten
    ∧ (streamRun parse fragments none).2 = none
    ∧ (∀ other : List (List Char), other.flatten = fragments.flatten →
        streamRun parse other none = streamRun parse fragments none) := by
  refine ⟨?_, ?_, ?_⟩
  · rw [streamRun_clean_eq]
  · rw [streamRun_clean_eq]
  · intro other hflat
    rw [streamRun_clean_eq, streamRun_clean_eq, hflat]

/-- Concrete line parser for the C4 witness: accepts exactly the text
"\x7b\x7d" as the payload 0. -/
def sampleLineParse (l : List Char) : Option Nat :=
  if l = ['{', '}'] then some 0 else none

/-- Witness for C4_stream_line_parsing: two fragmentations of the text
"\x7b\x7d\n\x7bbad\x7d\n\x7b\x7d" yield the same two parsed chunks. -/
theorem C4_witness :
    (streamRun sampleLineParse [['{', '}', '\n', '{'], ['b', 'a', 'd', '}', '\n', '{', '}']] none).1
      = allLineYields sampleLineParse ['{', '}', '\n', '{', 'b', 'a', 'd', '}', '\n', '{', '}']
    ∧ streamRun sampleLineParse [['{', '}', '\n', '{', 'b', 'a', 'd', '}', '\n', '{', '}']] none
      = streamRun sampleLineParse [['{', '}', '\n', '{'], ['b', 'a', 'd', '}', '\n', '{', '}']] none := by
  have h := C4_stream_line_parsing sampleLineParse
    [['{', '}', '\n', '{'], ['b', 'a', 'd', '}', '\n', '{', '}']]
  exact ⟨h.1.trans (congrArg (allLineYields sampleLineParse) (by decide)),
    h.2.2 [['{', '}', '\n', '{', 'b', 'a', 'd', '}', '\n', '{', '}']] (by decide)⟩

/-- Claim C5: non-streaming requests retry only on connection/timeout
failures, sleeping retry_delay * 2 ^ attempt before each retry: a success
at attempt k after k retryable failures returns it having slept exactly
those k backoff delays; retryable failures on all max_retries + 1 attempts
end in TransportError; any other failure kind aborts immediately with
TransportError and no further retry; the constructor default for
max_retries is 2; and a streaming request, once streaming has begun, is
never retried — a mid-stream timeout surfaces directly as StreamingError
with only the chunks already produced. -/
theorem C5_retry_policy (maxRetries : Nat) (retryDelay : ℚ)
    (outcomes : Nat → AttemptOutcome) (k : Nat) (j : Json) (raw m : String)
    {α : Type _} (parse : List Char → Option α) (fragments : List (List Char)) :
    defaultMaxRetries = 2
    ∧ (k ≤ maxRetries → (∀ i, i < k → (retryableMsg (outcomes i)).isSome) →
        outcomes k = .response 200 (.ok j) raw →
        makeRequest maxRetries retryDelay outcomes
          = (.ok j, (List.range k).map (fun i => retryDelay * 2 ^ i)))
    ∧ ((∀ i, i < maxRetries → (retryableMsg (outcomes i)).isSome) →
        retryableMsg (outcomes maxRetries) = some m →
        makeRequest maxRetries retryDelay outcomes
          = (.error (.transportError
              ("Connection failed after " ++ toString (maxRetries + 1) ++ " attempts: " ++ m)),
             (List.range maxRetries).map (fun i => retryDelay * 2 ^ i)))
    ∧ (k ≤ maxRetries → (∀ i, i < k → (retryableMsg (outcomes i)).isSome) →
        outcomes k = .otherFault m →
        makeRequest maxRetries retryDelay outcomes
          = (.error (.transportError ("Unexpected error: " ++ m)),
             (List.range k).map (fun i => retryDelay * 2 ^ i)))
    ∧ streamRun parse fragments (some .timeout)
        = ((feedAll parse fragments).1, some (.streamingError "Stream timed out")) := by
  exact ⟨rfl,
    fun hk hpre hsucc => makeRequest_success maxRetries retryDelay outcomes k j raw hk hpre hsucc,
    fun hpre hlast => makeRequest_exhausted maxRetries retryDelay outcomes m hpre hlast,
    fun hk hpre hother => makeRequest_unexpected maxRetries retryDelay outcomes k m hk hpre hother,
    rfl⟩

/-- Witness for C5_retry_policy: two connection failures then a success at
attempt 2 (= the default max_retries), sleeping 1s then 2s. -/
theorem C5_witness :
    makeRequest 2 1 (fun i => if i < 2 then .connectError "refused"
        else .response 200 (.ok (Json.obj [])) "")
      = (.ok (Json.obj []), (List.range 2).map (fun i => (1 : ℚ) * 2 ^ i)) :=
  (C5_retry_policy 2 1
    (fun i => if i < 2 then .connectError "refused"
      else .response 200 (.ok (Json.obj [])) "")
    2 (Json.obj []) "" "x" (fun _ : List Char => (none : Option Nat)) []).2.1
    (le_refl 2) (by decide) rfl

/-- Claim C6: the classification map itself (``_handle_error_response`` /
``_handle_response``) follows the claimed table — 404 mentioning a model
gives ModelError, other 404 and 400 give ValidationError, 5xx gives
TransportError, a non-JSON 200 body gives ValidationError — and the
streaming path surfaces the classified error; but on the non-streaming
path the broad `except Exception` of `_make_request` re-wraps the raised
classified error, so the caller observes TransportError("Unexpected
error: ...") instead of the claimed ModelError: the mapping is NOT
uniform across calls. -/
theorem C6_error_mapping :
    handleErrorResponse 404 "model 'llama3.2:3b' not found"
      = .modelError "Model not found: model 'llama3.2:3b' not found"
    ∧ handleErrorResponse 404 "page missing"
      = .validationError "Endpoint not found: page missing"
    ∧ handleErrorResponse 400 "bad parameter"
      = .validationError "Bad request: bad parameter"
    ∧ handleErrorResponse 500 "exploded"
      = .transportError "Server error: exploded"
    ∧ handleErrorResponse 503 "unavailable"
      = .transportError "Server error: unavailable"
    ∧ handleResponse 200 (.error "Expecting value") "<html>"
      = .error (.validationError "Invalid JSON response: Expecting value")
    ∧ (streamRequest (fun _ : List Char => (none : Option Json)) 404
        (.ok (Json.obj [("error", Json.str "model 'llama3.2:3b' not found")]))
        "" [] none).2
      = some (.modelError "Model not found: model 'llama3.2:3b' not found")
    ∧ (makeRequest 2 1 (fun _ => .response 404
        (.ok (Json.obj [("error", Json.str "model 'llama3.2:3b' not found")])) "")).1
      = .error (.transportError
          "Unexpected error: Model not found: model 'llama3.2:3b' not found")
    ∧ (makeRequest 2 1 (fun _ => .response 400
        (.ok (Json.obj [("error", Json.str "bad parameter")])) "")).1
      = .error (.transportError "Unexpected error: Bad request: bad parameter") := by
  refine ⟨by decide, by decide, by decide, by decide, by decide, rfl, ?_, rfl, rfl⟩
  rfl

/-- Claim C7: for a well-formed server URL, retrieve_memory normalizes a
200 response that is a bare list, or an object with a snippets field
(which wins over memories), or an object with a memories field, into the
snippet list; every other outcome — network error, any other exception,
any non-200 status including 404, an unparseable 200 body, an object with
neither field — yields the empty list; and no outcome whatsoever makes it
raise. -/
theorem C7_retrieve_memory (serverUrl : String)
    (hurl : validServerUrl serverUrl = true)
    (m e : String) (statusCode : Nat) (body : Except String Json)
    (xs : List Json) (fields : List (String × Json)) (v : Json) :
    retrieveMemory serverUrl (.networkError m) = .ok (Json.arr [])
    ∧ retrieveMemory serverUrl (.otherFault m) = .ok (Json.arr [])
    ∧ (statusCode ≠ 200 →
        retrieveMemory serverUrl (.response statusCode body) = .ok (Json.arr []))
    ∧ retrieveMemory serverUrl (.response 200 (.error e)) = .ok (Json.arr [])
    ∧ retrieveMemory serverUrl (.response 200 (.ok (Json.arr xs))) = .ok (Json.arr xs)
    ∧ (fields.lookup "snippets" = some v →
        retrieveMemory serverUrl (.response 200 (.ok (Json.obj fields))) = .ok v)
    ∧ (fields.lookup "snippets" = none → fields.lookup "memories" = some v →
        retrieveMemory serverUrl (.response 200 (.ok (Json.obj fields))) = .ok v)
    ∧ (fields.lookup "snippets" = none → fields.lookup "memories" = none →
        retrieveMemory serverUrl (.response 200 (.ok (Json.obj fields))) = .ok (Json.arr []))
    ∧ (∀ outcome : FetchOutcome, ∃ result : Json,
        retrieveMemory serverUrl outcome = .ok result) := by
  refine ⟨by simp [retrieveMemory, hurl], by simp [retrieveMemory, hurl],
    fun h => by simp [retrieveMemory, hurl, h],
    by simp [retrieveMemory, hurl],
    by simp [retrieveMemory, hurl],
    fun hv => by simp [retrieveMemory, hurl, hv],
    fun hn hv => by simp [retrieveMemory, hurl, hn, hv],
    fun hn hm => by simp [retrieveMemory, hurl, hn, hm],
    ?_⟩
  intro outcome
  rcases outcome with m' | m' | ⟨st, body'⟩
  · exact ⟨Json.arr [], by simp [retrieveMemory, hurl]⟩
  · exact ⟨Json.arr [], by simp [retrieveMemory, hurl]⟩
  · by_cases hst : st = 200
    · subst hst
      rcases body' with e' | j
      · exact ⟨Json.arr [], by simp [retrieveMemory, hurl]⟩
      · cases j with
        | null => exact ⟨Json.arr [], by simp [retrieveMemory, hurl]⟩
        | bool b => exact ⟨Json.arr [], by simp [retrieveMemory, hurl]⟩
        | num n => exact ⟨Json.arr [], by simp [retrieveMemory, hurl]⟩
        | str s => exact ⟨Json.arr [], by simp [retrieveMemory, hurl]⟩
        | arr ys => exact ⟨Json.arr ys, by simp [retrieveMemory, hurl]⟩
        | obj fs =>
          rcases h1 : fs.lookup "snippets" with _ | v1
          · rcases h2 : fs.lookup "memories" with _ | v2
            · exact ⟨Json.arr [], by simp [retrieveMemory, hurl, h1, h2]⟩
            · exact ⟨v2, by simp [retrieveMemory, hurl, h1, h2]⟩
          · exact ⟨v1, by simp [retrieveMemory, hurl, h1]⟩
    · exact ⟨Json.arr [], by simp [retrieveMemory, hurl, hst]⟩

/-- Witness for C7_retrieve_memory: a valid URL, a 404 response, and an
object payload whose snippets field wins over memories. -/
theorem C7_witness :
    retrieveMemory "http://mcp.example.com" (.response 404 (.error "no body"))
      = .ok (Json.arr [])
    ∧ retrieveMemory "http://mcp.example.com"
        (.response 200 (.ok (Json.obj
          [("snippets", Json.arr [Json.str "s1"]), ("memories", Json.arr [])])))
      = .ok (Json.arr [Json.str "s1"]) := by
  have h := C7_retrieve_memory "http://mcp.example.com" (by decide)
    "refused" "bad json" 404 (.error "no body") []
    [("snippets", Json.arr [Json.str "s1"]), ("memories", Json.arr [])]
    (Json.arr [Json.str "s1"])
  exact ⟨h.2.2.1 (by decide), h.2.2.2.2.2.1 rfl⟩

/-- Claim C8 fails as stated: with one input text and a successful service
response carrying an empty embeddings array, embed returns that response
unchanged — neither exactly len(texts) = 1 embeddings nor a
ValidationError — because the source never compares the embedding count to
the input count; and with the service unreachable, embed fails with
TransportError, not ValidationError. -/
theorem C8_counterexample :
    (embed 2 1 "nomic-embed-text" ["hello"]
        (fun _ => .response 200 (.ok (Json.obj [("embeddings", Json.arr [])])) "")).1
      = .ok (Json.obj [("embeddings", Json.arr [])])
    ∧ embeddingsCount (Json.obj [("embeddings", Json.arr [])]) = 0
    ∧ (["hello"] : List String).length = 1
    ∧ (0 : Nat) ≠ 1
    ∧ (embed 2 1 "nomic-embed-text" ["hello"] (fun _ => .connectError "refused")).1
      = .error (.transportError "Connection failed after 3 attempts: refused") := by
  exact ⟨rfl, rfl, rfl, by decide, rfl⟩

/-- Claim C8, amended: embed fails with ValidationError on an empty text
list or a blank model name, issuing no request; otherwise it issues one
request whose input is the bare string for a single text and the list
otherwise, and returns the service outcome verbatim — it does not
validate the number of embeddings, and non-validation failures surface
through the usual transport mapping. -/
theorem C8_embed (maxRetries : Nat) (retryDelay : ℚ) (model : String)
    (texts : List String) (outcomes : Nat → AttemptOutcome) (t : String)
    (ts : List String) :
    embed maxRetries retryDelay model [] outcomes
      = (.error (.validationError "Texts cannot be empty"), none)
    ∧ (pyStripStr model = "" → texts ≠ [] →
        embed maxRetries retryDelay model texts outcomes
          = (.error (.validationError "Model name cannot be empty"), none))
    ∧ (pyStripStr model ≠ "" →
        embed maxRetries retryDelay model (t :: ts) outcomes
          = ((makeRequest maxRetries retryDelay outcomes).1,
             some (if ts.isEmpty then .single t else .multi (t :: ts)))) := by
  refine ⟨rfl, fun hblank hne => ?_, fun hmodel => ?_⟩
  · cases texts with
    | nil => exact absurd rfl hne
    | cons t' ts' => simp [embed, hblank]
  · simp [embed, hmodel]

/-- Witness for C8_embed: a blank model name is rejected before any
request, and a two-text call forwards the list shape. -/
theorem C8_witness :
    embed 2 1 "  " ["a"] (fun _ => .connectError "x")
      = (.error (.validationError "Model name cannot be empty"), none)
    ∧ embed 2 1 "m" ["a", "b"] (fun _ => .connectError "x")
      = ((makeRequest 2 1 (fun _ => .connectError "x")).1,
         some (if ([("b" : String)] : List String).isEmpty then .single "a"
           else .multi ["a", "b"])) := by
  refine ⟨?_, ?_⟩
  · exact (C8_embed 2 1 "  " ["a"] (fun _ => .connectError "x") "a" []).2.1
      (by decide) (by simp)
  · exact (C8_embed 2 1 "m" ["a", "b"] (fun _ => .connectError "x") "a" ["b"]).2.2
      (by decide)

/-- Claim C9: summarize_thread loads at most 50 recent messages; with
fewer than 5 it returns the fixed "too short" result without invoking the
model and without writing anything; with at least 5 it invokes the model,
and on success stores the summary as a new system-role row whose content
carries the fixed "[THREAD SUMMARY]: " marker and returns the summary,
while any generation failure returns the descriptive
"Summarization failed: <e>" string instead of raising (and stores
nothing). -/
theorem C9_summarize_thread (table : List DbMessage) (threadId : Nat)
    (historyLimit : Nat) (genOutcome : Except String Json)
    (summaryMsgId tsSummary : Nat) (companyModel : String)
    (j : Json) (e : String) :
    (getMessages table threadId (some 50) historyLimit).length ≤ 50
    ∧ ((getMessages table threadId (some 50) historyLimit).length < 5 →
        summarizeThread table threadId historyLimit genOutcome summaryMsgId
            tsSummary companyModel
          = ⟨"Thread too short to summarize.", table, false⟩)
    ∧ (5 ≤ (getMessages table threadId (some 50) historyLimit).length →
        (summarizeThread table threadId historyLimit genOutcome summaryMsgId
            tsSummary companyModel).modelCalled = true
        ∧ (genOutcome = .ok j →
            summarizeThread table threadId historyLimit genOutcome summaryMsgId
                tsSummary companyModel
              = ⟨responseSummary j,
                  table ++ [⟨summaryMsgId, threadId, "system",
                    "[THREAD SUMMARY]: " ++ responseSummary j,
                    some companyModel, none, tsSummary⟩], true⟩)
        ∧ (genOutcome = .error e →
            summarizeThread table threadId historyLimit genOutcome summaryMsgId
                tsSummary companyModel
              = ⟨"Summarization failed: " ++ e, table, true⟩)) := by
  refine ⟨getMessages_length_le table threadId (some 50) historyLimit,
    fun hshort => ?_, fun hlong => ?_⟩
  · simp [summarizeThread, hshort]
  · have hns : ¬ (getMessages table threadId (some 50) historyLimit).length < 5 := by
      omega
    refine ⟨?_, fun hok => ?_, fun herr => ?_⟩
    · rcases genOutcome with e' | j' <;> simp [summarizeThread, hns]
    · subst hok
      simp [summarizeThread, hns]
    · subst herr
      simp [summarizeThread, hns]

/-- Witness for C9_summarize_thread: a five-message thread whose
generation succeeds with the summary "All good.". -/
theorem C9_witness :
    summarizeThread
        [⟨1, 7, "user", "m1", none, none, 1⟩, ⟨2, 7, "assistant", "m2", none, none, 2⟩,
         ⟨3, 7, "user", "m3", none, none, 3⟩, ⟨4, 7, "assistant", "m4", none, none, 4⟩,
         ⟨5, 7, "user", "m5", none, none, 5⟩] 7 10
        (.ok (Json.obj [("response", Json.str "All good.")])) 6 9 "llama3.2:3b"
      = ⟨responseSummary (Json.obj [("response", Json.str "All good.")]),
          [⟨1, 7, "user", "m1", none, none, 1⟩, ⟨2, 7, "assistant", "m2", none, none, 2⟩,
           ⟨3, 7, "user", "m3", none, none, 3⟩, ⟨4, 7, "assistant", "m4", none, none, 4⟩,
           ⟨5, 7, "user", "m5", none, none, 5⟩] ++
          [⟨6, 7, "system",
            "[THREAD SUMMARY]: " ++ responseSummary (Json.obj [("response", Json.str "All good.")]),
            some "llama3.2:3b", none, 9⟩], true⟩ :=
  ((C9_summarize_thread
    [⟨1, 7, "user", "m1", none, none, 1⟩, ⟨2, 7, "assistant", "m2", none, none, 2⟩,
     ⟨3, 7, "user", "m3", none, none, 3⟩, ⟨4, 7, "assistant", "m4", none, none, 4⟩,
     ⟨5, 7, "user", "m5", none, none, 5⟩] 7 10
    (.ok (Json.obj [("response", Json.str "All good.")])) 6 9 "llama3.2:3b"
    (Json.obj [("response", Json.str "All good.")]) "e").2.2 (by decide)).2.1 rfl

/-- Claim C10 fails as stated: a 200 response whose models field is the
number 5 makes len(models) raise TypeError inside health_check's try, and
health_check reports connected: False / offline — so there IS an outcome
on which it does not report online. -/
theorem C10_counterexample :
    (healthCheck 2 1
        (fun _ => .response 200 (.ok (Json.obj [("models", Json.num 5)])) "")).connected
      = false
    ∧ (healthCheck 2 1
        (fun _ => .response 200 (.ok (Json.obj [("models", Json.num 5)])) "")).status
      = "offline" := by
  exact ⟨rfl, rfl⟩

/-- Claim C10, amended: health_check reports connected: True / online for
every outcome in which the models value extracted by list_models has a
Python length — in particular for every failing request (connection
refusal, timeout, any error status), for any 200 body that is not an
object, and for any models field that is a list; list_models absorbs
every such failure into the empty list.  The sole exception is a 200
object response whose models field is a length-less value (number,
boolean or null), where len raises and health_check reports offline. -/
theorem C10_health_check (maxRetries : Nat) (retryDelay : ℚ)
    (outcomes : Nat → AttemptOutcome) (n : Nat) (e : OllamaError)
    (xs : List Json) :
    ((listModels maxRetries retryDelay outcomes).pyLen = some n →
        healthCheck maxRetries retryDelay outcomes
          = ⟨true, "online", listModels maxRetries retryDelay outcomes, n⟩)
    ∧ ((makeRequest maxRetries retryDelay outcomes).1 = .error e →
        healthCheck maxRetries retryDelay outcomes = ⟨true, "online", Json.arr [], 0⟩)
    ∧ ((makeRequest maxRetries retryDelay outcomes).1
          = .ok (Json.obj [("models", Json.arr xs)]) →
        healthCheck maxRetries retryDelay outcomes
          = ⟨true, "online", Json.arr xs, xs.length⟩)
    ∧ ((healthCheck maxRetries retryDelay outcomes).connected = false →
        ∃ fields v, (makeRequest maxRetries retryDelay outcomes).1
            = .ok (Json.obj fields)
          ∧ fields.lookup "models" = some v ∧ v.pyLen = none) := by
  refine ⟨fun hlen => ?_, fun herr => ?_, fun hok => ?_, fun hfail => ?_⟩
  · simp [healthCheck, hlen]
  · simp [healthCheck, listModels, herr, Json.pyLen]
  · simp [healthCheck, listModels, hok, Json.pyLen]
  · by_cases hlen : ∃ k, (listModels maxRetries retryDelay outcomes).pyLen = some k
    · obtain ⟨k, hk⟩ := hlen
      simp [healthCheck, hk] at hfail
    · push_neg at hlen
      have hnone : (listModels maxRetries retryDelay outcomes).pyLen = none := by
        cases h : (listModels maxRetries retryDelay outcomes).pyLen with
        | none => rfl
        | some k => exact absurd h (hlen k)
      rcases hmk : (makeRequest maxRetries retryDelay outcomes).1 with e' | j
      · rw [listModels, hmk] at hnone
        simp [Json.pyLen] at hnone
      · cases j with
        | obj fields =>
          rw [listModels, hmk] at hnone
          have hnone2 : ((fields.lookup "models").getD (Json.arr [])).pyLen = none := hnone
          rcases hlook : fields.lookup "models" with _ | v
          · rw [hlook] at hnone2
            simp [Json.pyLen] at hnone2
          · rw [hlook, Option.getD_some] at hnone2
            exact ⟨fields, v, rfl, hlook, hnone2⟩
        | null => rw [listModels, hmk] at hnone; simp [Json.pyLen] at hnone
        | bool b => rw [listModels, hmk] at hnone; simp [Json.pyLen] at hnone
        | num k => rw [listModels, hmk] at hnone; simp [Json.pyLen] at hnone
        | str s => rw [listModels, hmk] at hnone; simp [Json.pyLen] at hnone
        | arr ys => rw [listModels, hmk] at hnone; simp [Json.pyLen] at hnone

/-- Witness for C10_health_check: with the service refusing every
connection, health_check still reports online with an empty model list. -/
theorem C10_witness :
    healthCheck 2 1 (fun _ => .connectError "refused")
      = ⟨true, "online", Json.arr [], 0⟩ :=
  (C10_health_check 2 1 (fun _ => .connectError "refused") 0
    (.transportError "Connection failed after 3 attempts: refused") []).2.1 rfl
